import Mathlib

/-!
Verification of the Stan constrained-parameter transform engine
(`src/stan/io/reader.hpp`): a stream-based reader over two caller-owned
buffers (`reals`, `ints`) with cursors `pos` / `int_pos`, primitive
extractors, view builders and the constraint-transform catalog.

The embedding mirrors the C++ source.  The reader's own throw sites use
`std::runtime_error` or `std::invalid_argument`; both C++ exception
classes are captured by `CppExc` together with the message thrown.
Because the C++ reader object survives a throw (its cursor fields keep
whatever value they had when the exception propagated), every operation
is modelled as a function returning both an `Except` result and the
state after the call, including on failure.

Scalars are modelled as real numbers (the plain backend instantiates the
class template at `double`; its arithmetic is idealized as `ℝ`), and the
machine `int` of the integer buffer as `Int`.  The Eigen `Map` views are
modelled by their contents: a `List` for vector views and an
entry-lookup function for matrix views (column-major, as in the source).
`stan::math` transform bodies live outside this repository; they are
modelled from the spec where a claim needs their values, and each such
definition is marked `Modelled from the spec:`.
-/

namespace StanIO

/-- C++ exception thrown by a reader operation: the reader's own checks
throw `std::runtime_error`, the zero-size shape checks throw
`std::invalid_argument`; the message is the string passed at the throw
site. -/
inductive CppExc where
  | runtimeError (msg : String)
  | invalidArgument (msg : String)
deriving DecidableEq

/-- Classification of a `CppExc` into the spec's `InvalidArgument` /
`InvalidDimension` category: the C++ class `std::invalid_argument`. -/
def CppExc.isInvalidArgumentClass : CppExc → Bool
  | .invalidArgument _ => true
  | .runtimeError _ => false

/-- Reader state: the two caller-owned backing buffers and the two
cursors, mirroring the fields `data_r_`, `data_i_`, `pos_`, `int_pos_`
of `stan::io::reader`.  `α` is the scalar type `T`. -/
structure RState (α : Type) where
  reals : List α
  ints : List Int
  pos : Nat
  intPos : Nat
deriving DecidableEq

/-- A freshly constructed reader over the given buffers (`pos_` and
`int_pos_` are zero-initialized in the source). -/
def mkReader (reals : List α) (ints : List Int) : RState α :=
  { reals := reals, ints := ints, pos := 0, intPos := 0 }

/-- Mirrors `available()`: `data_r_.size() - pos_` (a `size_t`
subtraction; `Nat` subtraction agrees with it whenever `pos ≤ Nr`). -/
def available (s : RState α) : Nat := s.reals.length - s.pos

/-- Mirrors `available_i()`: `data_i_.size() - int_pos_`. -/
def available_i (s : RState α) : Nat := s.ints.length - s.intPos

/-- Mirrors `reader::integer()`: bounds check first, then return
`ints[int_pos]` and advance `int_pos` by one. -/
def integer (s : RState α) : Except CppExc Int × RState α :=
  if h : s.ints.length ≤ s.intPos then
    (.error (.runtimeError "no more integers to read."), s)
  else
    (.ok (s.ints.get ⟨s.intPos, by omega⟩), { s with intPos := s.intPos + 1 })

/-- Mirrors `reader::scalar()`: bounds check first, then return
`reals[pos]` and advance `pos` by one. -/
def scalar (s : RState α) : Except CppExc α × RState α :=
  if h : s.reals.length ≤ s.pos then
    (.error (.runtimeError "no more scalars to read"), s)
  else
    (.ok (s.reals.get ⟨s.pos, by omega⟩), { s with pos := s.pos + 1 })

/-- Mirrors `reader::integer_lb(lb)`: consume one integer first (the
consumed position survives a subsequent validation failure), then
validate against the lower bound. -/
def integer_lb (lb : Int) (s : RState α) : Except CppExc Int × RState α :=
  match integer s with
  | (.error e, s') => (.error e, s')
  | (.ok i, s') =>
    if ¬ (i ≥ lb) then
      (.error (.runtimeError "required value greater than or equal to lb"), s')
    else
      (.ok i, s')

/-- Mirrors `reader::integer_ub(ub)`: consume one integer first, then
validate against the upper bound. -/
def integer_ub (ub : Int) (s : RState α) : Except CppExc Int × RState α :=
  match integer s with
  | (.error e, s') => (.error e, s')
  | (.ok i, s') =>
    if ¬ (i ≤ ub) then
      (.error (.runtimeError "required value less than or equal to ub"), s')
    else
      (.ok i, s')

/-- Mirrors `reader::integer_lub(lb, ub)`: read first "to make position
deterministic", then check `lb > ub`, then the two bound checks. -/
def integer_lub (lb ub : Int) (s : RState α) : Except CppExc Int × RState α :=
  match integer s with
  | (.error e, s') => (.error e, s')
  | (.ok i, s') =>
    if lb > ub then
      (.error (.runtimeError "lower bound must be less than or equal to ub"), s')
    else if ¬ (i ≥ lb) then
      (.error (.runtimeError "required value greater than or equal to lb"), s')
    else if ¬ (i ≤ ub) then
      (.error (.runtimeError "required value less than or equal to ub"), s')
    else
      (.ok i, s')

/-- Mirrors `reader::std_vector(m)`: copy the next `m` scalars and
advance `pos` by `m`; `m = 0` returns empty without touching `pos`. -/
def std_vector (m : Nat) (s : RState α) : List α × RState α :=
  if m = 0 then ([], s)
  else ((s.reals.drop s.pos).take m, { s with pos := s.pos + m })

/-- Mirrors `reader::vector(m)`: a length-`m` view over the next `m`
scalars via `scalar_ptr_increment(m)`, which advances `pos` by `m`
without any bounds check; `m = 0` yields an empty view, no consumption.
The view is modelled by its contents. -/
def vector (m : Nat) (s : RState α) : List α × RState α :=
  if m = 0 then ([], s)
  else ((s.reals.drop s.pos).take m, { s with pos := s.pos + m })

/-- Mirrors `reader::row_vector(m)`: same consumption and contents as
`vector(m)`, only the Eigen shape tag differs. -/
def row_vector (m : Nat) (s : RState α) : List α × RState α :=
  if m = 0 then ([], s)
  else ((s.reals.drop s.pos).take m, { s with pos := s.pos + m })

/-- An `m×n` column-major Eigen map view, modelled by an entry lookup:
`entry i j` is the backing-buffer element the view places at row `i`,
column `j` (`none` for the empty `nullptr` view or out-of-buffer
indices). -/
structure MatView (α : Type) where
  rows : Nat
  cols : Nat
  entry : Nat → Nat → Option α

/-- Mirrors `reader::matrix(m, n)`: either dimension zero yields an
empty view with no consumption; otherwise the view interprets the next
`m*n` scalars in column-major order (entry `(i, j)` is buffer element
`pos + j*m + i`) and `pos` advances by `m*n` (unchecked). -/
def matrix (m n : Nat) (s : RState α) : MatView α × RState α :=
  if m = 0 ∨ n = 0 then
    ({ rows := m, cols := n, entry := fun _ _ => none }, s)
  else
    ({ rows := m, cols := n, entry := fun i j => s.reals[s.pos + j * m + i]? },
     { s with pos := s.pos + m * n })

end StanIO

namespace StanMath

/-- Modelled from the spec: the logistic function `σ` used by the
probability and stick-breaking transforms (`stan::math::inv_logit`,
outside this repository). -/
noncomputable def inv_logit (x : ℝ) : ℝ := 1 / (1 + Real.exp (-x))

/-- Modelled from the spec: `stan::math::positive_constrain` (outside
this repository), the lower-bound-0 forward map `y = exp(x)`. -/
noncomputable def positive_constrain (x : ℝ) : ℝ := Real.exp x

/-- Modelled from the spec: the stick-breaking recursion of
`stan::math::simplex_constrain` (outside this repository).  With
`stick` mass remaining and raw inputs `ys`, each step takes the
fraction `σ(y - log r)` of the stick (`r` = number of raw inputs still
to come after this one, plus one), and the final entry is the leftover
stick. -/
noncomputable def stickBreak : ℝ → List ℝ → List ℝ
  | stick, [] => [stick]
  | stick, y :: ys =>
    let z := inv_logit (y - Real.log (ys.length + 1))
    stick * z :: stickBreak (stick - stick * z) ys

/-- Modelled from the spec: `stan::math::simplex_constrain` applied to
`k-1` raw scalars, producing a length-`k` simplex by stick-breaking
from a full unit stick. -/
noncomputable def simplex_constrain (ys : List ℝ) : List ℝ :=
  stickBreak 1 ys

/-- Modelled from the spec: `stan::math::unit_vector_constrain`
(outside this repository), L2-normalization of the raw vector. -/
noncomputable def unit_vector_constrain (v : List ℝ) : List ℝ :=
  v.map fun x => x / Real.sqrt ((v.map fun y => y ^ 2).sum)

/-- Modelled from the spec: the running-sum-of-exponentials step of
`stan::math::ordered_constrain`: each next entry is the previous one
plus `exp` of the next raw scalar. -/
noncomputable def orderedSteps : ℝ → List ℝ → List ℝ
  | _, [] => []
  | prev, x :: xs =>
    let y := prev + Real.exp x
    y :: orderedSteps y xs

/-- Modelled from the spec: `stan::math::ordered_constrain` (outside
this repository): `y₁ = x₁`, `yᵢ = yᵢ₋₁ + exp(xᵢ)` for `i > 1`. -/
noncomputable def ordered_constrain : List ℝ → List ℝ
  | [] => []
  | x :: xs => x :: orderedSteps x xs

/-- Modelled from the spec: `stan::math::positive_ordered_constrain`
(outside this repository): `y₁ = exp(x₁)`, `yᵢ = yᵢ₋₁ + exp(xᵢ)`. -/
noncomputable def positive_ordered_constrain (xs : List ℝ) : List ℝ :=
  orderedSteps 0 xs

/-- Modelled from the spec: tail of one row of the correlation-Cholesky
construction.  Given the partial sum of squares of the entries already
placed in the row, each further canonical partial correlation `z`
contributes entry `z * sqrt(1 - sumSqs)` and log-Jacobian term
`log(1 - sumSqs) / 2`, and the row is closed by the unit-norm diagonal
entry `sqrt(1 - sumSqs)`.  Returns the row tail and the row's
log-Jacobian contribution. -/
noncomputable def cholCorrRowTail : List ℝ → ℝ → List ℝ × ℝ
  | [], sumSqs => ([Real.sqrt (1 - sumSqs)], 0)
  | z :: zs, sumSqs =>
    let x := z * Real.sqrt (1 - sumSqs)
    let r := cholCorrRowTail zs (sumSqs + x ^ 2)
    (x :: r.1, Real.log (1 - sumSqs) / 2 + r.2)

/-- Modelled from the spec: one below-diagonal row of the
correlation-Cholesky construction; its first entry is the first
canonical partial correlation itself (no scaling, no Jacobian term). -/
noncomputable def cholCorrRow (z0 : ℝ) (zs : List ℝ) : List ℝ × ℝ :=
  let r := cholCorrRowTail zs (z0 ^ 2)
  (z0 :: r.1, r.2)

/-- Modelled from the spec: rows `i, i+1, ...` (`rowsLeft` of them) of
the correlation-Cholesky construction, row `j` consuming `j` canonical
partial correlations from `z`.  Returns the rows (without their
trailing zero padding) and the accumulated log-Jacobian terms. -/
noncomputable def cholCorrRows : Nat → Nat → List ℝ → List (List ℝ) × ℝ
  | _, 0, _ => ([], 0)
  | i, rowsLeft + 1, z =>
    match z.take i with
    | [] => ([], 0)
    | z0 :: zs =>
      let row := cholCorrRow z0 zs
      let rest := cholCorrRows (i + 1) rowsLeft (z.drop i)
      (row.1 :: rest.1, row.2 + rest.2)

/-- Modelled from the spec: `stan::math::cholesky_corr_constrain(y, K,
lp)` (outside this repository), the standard correlation-Cholesky
bijection: map the raw scalars through `tanh` (adding
`log(1 - tanh(y)²)` per scalar to `lp`), then build the `K×K`
lower-triangular factor row by row (row 0 is `[1]`), adding the
construction's per-row log terms to `lp`. -/
noncomputable def cholesky_corr_constrain_lp (ys : List ℝ) (K : Nat) (lp : ℝ) :
    List (List ℝ) × ℝ :=
  let z := ys.map Real.tanh
  let tanhLp := (ys.map fun y => Real.log (1 - Real.tanh y ^ 2)).sum
  let rows := cholCorrRows 1 (K - 1) z
  (if K = 0 then [] else [(1 : ℝ)] :: rows.1, lp + tanhLp + rows.2)

/-- Modelled from the spec: the plain (no accumulator) overload of
`stan::math::cholesky_corr_constrain`; same construction, value channel
only. -/
noncomputable def cholesky_corr_constrain (ys : List ℝ) (K : Nat) :
    List (List ℝ) :=
  (cholesky_corr_constrain_lp ys K 0).1

end StanMath

namespace StanIO

/-- Mirrors `reader::scalar_pos_constrain()`:
`stan::math::positive_constrain(scalar())`. -/
noncomputable def scalar_pos_constrain (s : RState ℝ) :
    Except CppExc ℝ × RState ℝ :=
  match scalar s with
  | (.error e, s') => (.error e, s')
  | (.ok x, s') => (.ok (StanMath.positive_constrain x), s')

/-- Mirrors `reader::scalar_pos_constrain<Jacobian>(lp)`: when the flag
is set, the accumulating overload is used (its Jacobian term is the raw
scalar itself); otherwise the plain overload, leaving `lp` alone. -/
noncomputable def scalar_pos_constrain_lp (J : Bool) (s : RState ℝ) (lp : ℝ) :
    Except CppExc ℝ × RState ℝ × ℝ :=
  if J then
    match scalar s with
    | (.error e, s') => (.error e, s', lp)
    | (.ok x, s') => (.ok (StanMath.positive_constrain x), s', lp + x)
  else
    match scalar s with
    | (.error e, s') => (.error e, s', lp)
    | (.ok x, s') => (.ok (StanMath.positive_constrain x), s', lp)

/-- Mirrors `reader::unit_vector_constrain(k)`: reject `k = 0` with
`std::invalid_argument`, otherwise apply the normalization to
`vector(k)` — consuming `k` raw scalars. -/
noncomputable def unit_vector_constrain (k : Nat) (s : RState ℝ) :
    Except CppExc (List ℝ) × RState ℝ :=
  if k = 0 then
    (.error (.invalidArgument "io::unit_vector_constrain: unit vectors cannot be size 0."), s)
  else
    let p := vector k s
    (.ok (StanMath.unit_vector_constrain p.1), p.2)

/-- Mirrors `reader::simplex_constrain(k)`: reject `k = 0` with
`std::invalid_argument`, otherwise apply the stick-breaking transform
to `vector(k - 1)` — consuming `k - 1` raw scalars. -/
noncomputable def simplex_constrain (k : Nat) (s : RState ℝ) :
    Except CppExc (List ℝ) × RState ℝ :=
  if k = 0 then
    (.error (.invalidArgument "io::simplex_constrain: simplexes cannot be size 0."), s)
  else
    let p := vector (k - 1) s
    (.ok (StanMath.simplex_constrain p.1), p.2)

/-- Mirrors `reader::ordered_constrain(k)`:
`stan::math::ordered_constrain(vector(k))`. -/
noncomputable def ordered_constrain (k : Nat) (s : RState ℝ) :
    List ℝ × RState ℝ :=
  let p := vector k s
  (StanMath.ordered_constrain p.1, p.2)

/-- Mirrors `reader::positive_ordered_constrain(k)`:
`stan::math::positive_ordered_constrain(vector(k))`. -/
noncomputable def positive_ordered_constrain (k : Nat) (s : RState ℝ) :
    List ℝ × RState ℝ :=
  let p := vector k s
  (StanMath.positive_ordered_constrain p.1, p.2)

/-- Mirrors `reader::cholesky_factor_corr_constrain(K)`:
`stan::math::cholesky_corr_constrain(vector(K*(K-1)/2), K)`. -/
noncomputable def cholesky_factor_corr_constrain (K : Nat) (s : RState ℝ) :
    List (List ℝ) × RState ℝ :=
  let p := vector ((K * (K - 1)) / 2) s
  (StanMath.cholesky_corr_constrain p.1 K, p.2)

/-- Mirrors `reader::cholesky_factor_corr_constrain<Jacobian>(K, lp)`.
In the source both branches of `if (Jacobian)` call the accumulating
overload `cholesky_corr_constrain(vector(K*(K-1)/2), K, lp)`; the
branch structure is reproduced verbatim. -/
noncomputable def cholesky_factor_corr_constrain_lp (J : Bool) (K : Nat)
    (s : RState ℝ) (lp : ℝ) : List (List ℝ) × RState ℝ × ℝ :=
  if J then
    let p := vector ((K * (K - 1)) / 2) s
    let r := StanMath.cholesky_corr_constrain_lp p.1 K lp
    (r.1, p.2, r.2)
  else
    let p := vector ((K * (K - 1)) / 2) s
    let r := StanMath.cholesky_corr_constrain_lp p.1 K lp
    (r.1, p.2, r.2)

/-- One reader call in a call sequence, with the arguments the
generated model code would pass; used to state the stream-cursor
invariants over arbitrary call sequences. -/
inductive Op where
  | opScalar
  | opInteger
  | opStdVector (m : Nat)
  | opVector (m : Nat)
  | opRowVector (m : Nat)
  | opMatrix (m n : Nat)
  | opIntegerLb (lb : Int)
  | opIntegerUb (ub : Int)
  | opIntegerLub (lb ub : Int)
  | opScalarPosConstrain
  | opUnitVectorConstrain (k : Nat)
  | opSimplexConstrain (k : Nat)
  | opOrderedConstrain (k : Nat)
  | opPositiveOrderedConstrain (k : Nat)
  | opCholCorrConstrain (K : Nat)

/-- The documented raw-count formula of each operation: how many
scalars of the real stream it consumes. -/
def Op.rawCount : Op → Nat
  | .opScalar => 1
  | .opInteger => 0
  | .opStdVector m => m
  | .opVector m => m
  | .opRowVector m => m
  | .opMatrix m n => m * n
  | .opIntegerLb _ => 0
  | .opIntegerUb _ => 0
  | .opIntegerLub _ _ => 0
  | .opScalarPosConstrain => 1
  | .opUnitVectorConstrain k => k
  | .opSimplexConstrain k => k - 1
  | .opOrderedConstrain k => k
  | .opPositiveOrderedConstrain k => k
  | .opCholCorrConstrain K => (K * (K - 1)) / 2

/-- The number of integers each operation consumes from the integer
stream. -/
def Op.intCount : Op → Nat
  | .opInteger => 1
  | .opIntegerLb _ => 1
  | .opIntegerUb _ => 1
  | .opIntegerLub _ _ => 1
  | _ => 0

/-- The reader state after one call (the reader object survives a
throw, so the state is defined for failing calls too). -/
noncomputable def Op.step : Op → RState ℝ → RState ℝ
  | .opScalar, s => (scalar s).2
  | .opInteger, s => (integer s).2
  | .opStdVector m, s => (std_vector m s).2
  | .opVector m, s => (vector m s).2
  | .opRowVector m, s => (row_vector m s).2
  | .opMatrix m n, s => (matrix m n s).2
  | .opIntegerLb lb, s => (integer_lb lb s).2
  | .opIntegerUb ub, s => (integer_ub ub s).2
  | .opIntegerLub lb ub, s => (integer_lub lb ub s).2
  | .opScalarPosConstrain, s => (scalar_pos_constrain s).2
  | .opUnitVectorConstrain k, s => (unit_vector_constrain k s).2
  | .opSimplexConstrain k, s => (simplex_constrain k s).2
  | .opOrderedConstrain k, s => (ordered_constrain k s).2
  | .opPositiveOrderedConstrain k, s => (positive_ordered_constrain k s).2
  | .opCholCorrConstrain K, s => (cholesky_factor_corr_constrain K s).2

/-- Run a call sequence, threading the reader state. -/
noncomputable def runOps : List Op → RState ℝ → RState ℝ
  | [], s => s
  | op :: rest, s => runOps rest (op.step s)

/-- Total raw-scalar consumption of a call sequence. -/
def rawSum (ops : List Op) : Nat := (ops.map Op.rawCount).sum

/-- Total integer consumption of a call sequence. -/
def intSum (ops : List Op) : Nat := (ops.map Op.intCount).sum

/-- Every call of the sequence finds enough raw scalars and integers
remaining at the state where it runs. -/
def okCounts : List Op → RState ℝ → Prop
  | [], _ => True
  | op :: rest, s =>
    op.rawCount ≤ available s ∧ op.intCount ≤ available_i s ∧
      okCounts rest (op.step s)

end StanIO

namespace StanIO

/-- Value channel of `stan::math::var`: a derivative-tracked scalar
holds an arithmetic value plus gradient bookkeeping; per §4.6 of the
spec only the value channel is observable through the reader contract,
so the tape side is not modelled (modelled from the spec). -/
structure VarScalar where
  val : ℝ

/-- Mirrors `stan::math::to_var_value` on the value channel: wrap every
plain scalar. -/
def to_var_value (v : List ℝ) : List VarScalar := v.map VarScalar.mk

/-- Mirrors `reader::var_vector(m)` (the `var` instantiation):
`to_var_value` of the view built by `scalar_ptr_increment(m)`; `m = 0`
returns an empty vector with no consumption. -/
def var_vector (m : Nat) (s : RState ℝ) : List VarScalar × RState ℝ :=
  if m = 0 then ([], s)
  else (to_var_value ((s.reals.drop s.pos).take m), { s with pos := s.pos + m })

/-- Mirrors `reader::var_row_vector(m)`. -/
def var_row_vector (m : Nat) (s : RState ℝ) : List VarScalar × RState ℝ :=
  if m = 0 then ([], s)
  else (to_var_value ((s.reals.drop s.pos).take m), { s with pos := s.pos + m })

/-- Mirrors `reader::var_matrix(m, n)`: note that when either dimension
is zero the source returns `var_matrix_t(Eigen::MatrixXd(0, 0))` — a
`0×0` matrix, not the `m×n` empty view the plain `matrix(m, n)`
builds. -/
def var_matrix (m n : Nat) (s : RState ℝ) : MatView VarScalar × RState ℝ :=
  if m = 0 ∨ n = 0 then
    ({ rows := 0, cols := 0, entry := fun _ _ => none }, s)
  else
    ({ rows := m, cols := n,
       entry := fun i j => (s.reals[s.pos + j * m + i]?).map VarScalar.mk },
     { s with pos := s.pos + m * n })

end StanIO

namespace StanMath

/-- Modelled from the spec: the accumulating overload of
`stan::math::unit_vector_constrain` (outside this repository); the
reference normalization adjustment is `-‖x‖² / 2`. -/
noncomputable def unit_vector_constrain_lp (v : List ℝ) (lp : ℝ) :
    List ℝ × ℝ :=
  (unit_vector_constrain v, lp - ((v.map fun y => y ^ 2).sum) / 2)

/-- Modelled from the spec: the stick-breaking recursion with its
per-step log-Jacobian terms `log(stick) + log(z) + log(1 - z)`. -/
noncomputable def stickBreakLp : ℝ → List ℝ → List ℝ × ℝ
  | stick, [] => ([stick], 0)
  | stick, y :: ys =>
    let z := inv_logit (y - Real.log (ys.length + 1))
    let r := stickBreakLp (stick - stick * z) ys
    (stick * z :: r.1, Real.log stick + Real.log z + Real.log (1 - z) + r.2)

/-- Modelled from the spec: the accumulating overload of
`stan::math::simplex_constrain`. -/
noncomputable def simplex_constrain_lp (ys : List ℝ) (lp : ℝ) :
    List ℝ × ℝ :=
  let r := stickBreakLp 1 ys
  (r.1, lp + r.2)

end StanMath

namespace StanIO

/-- Mirrors `reader::unit_vector_constrain<Jacobian>(k, lp)`: reject
`k = 0`, then dispatch on the Jacobian flag between the accumulating
and the plain `stan::math` overloads. -/
noncomputable def unit_vector_constrain_lp (J : Bool) (k : Nat)
    (s : RState ℝ) (lp : ℝ) : Except CppExc (List ℝ) × RState ℝ × ℝ :=
  if k = 0 then
    (.error (.invalidArgument "io::unit_vector_constrain: unit vectors cannot be size 0."), s, lp)
  else if J then
    let p := vector k s
    let r := StanMath.unit_vector_constrain_lp p.1 lp
    (.ok r.1, p.2, r.2)
  else
    let p := vector k s
    (.ok (StanMath.unit_vector_constrain p.1), p.2, lp)

/-- Mirrors `reader::var_unit_vector_constrain<Jacobian>(k, lp)`: same
structure over `var_vector(k)`. -/
noncomputable def var_unit_vector_constrain_lp (J : Bool) (k : Nat)
    (s : RState ℝ) (lp : ℝ) :
    Except CppExc (List VarScalar) × RState ℝ × ℝ :=
  if k = 0 then
    (.error (.invalidArgument "io::unit_vector_constrain: unit vectors cannot be size 0."), s, lp)
  else if J then
    let p := var_vector k s
    let r := StanMath.unit_vector_constrain_lp (p.1.map VarScalar.val) lp
    (.ok (to_var_value r.1), p.2, r.2)
  else
    let p := var_vector k s
    (.ok (to_var_value (StanMath.unit_vector_constrain (p.1.map VarScalar.val))), p.2, lp)

/-- Mirrors `reader::simplex_constrain<Jacobian>(k, lp)`. -/
noncomputable def simplex_constrain_lp (J : Bool) (k : Nat)
    (s : RState ℝ) (lp : ℝ) : Except CppExc (List ℝ) × RState ℝ × ℝ :=
  if k = 0 then
    (.error (.invalidArgument "io::simplex_constrain: simplexes cannot be size 0."), s, lp)
  else if J then
    let p := vector (k - 1) s
    let r := StanMath.simplex_constrain_lp p.1 lp
    (.ok r.1, p.2, r.2)
  else
    let p := vector (k - 1) s
    (.ok (StanMath.simplex_constrain p.1), p.2, lp)

/-- Mirrors `reader::var_simplex_constrain<Jacobian>(k, lp)`. -/
noncomputable def var_simplex_constrain_lp (J : Bool) (k : Nat)
    (s : RState ℝ) (lp : ℝ) :
    Except CppExc (List VarScalar) × RState ℝ × ℝ :=
  if k = 0 then
    (.error (.invalidArgument "io::simplex_constrain: simplexes cannot be size 0."), s, lp)
  else if J then
    let p := var_vector (k - 1) s
    let r := StanMath.simplex_constrain_lp (p.1.map VarScalar.val) lp
    (.ok (to_var_value r.1), p.2, r.2)
  else
    let p := var_vector (k - 1) s
    (.ok (to_var_value (StanMath.simplex_constrain (p.1.map VarScalar.val))), p.2, lp)

/-- Mirrors `reader::var_positive_ordered_constrain(k)`. -/
noncomputable def var_positive_ordered_constrain (k : Nat) (s : RState ℝ) :
    List VarScalar × RState ℝ :=
  let p := var_vector k s
  (to_var_value (StanMath.positive_ordered_constrain (p.1.map VarScalar.val)), p.2)

/-- Mirrors `reader::var_cholesky_factor_corr_constrain(K)`. -/
noncomputable def var_cholesky_factor_corr_constrain (K : Nat) (s : RState ℝ) :
    List (List VarScalar) × RState ℝ :=
  let p := var_vector ((K * (K - 1)) / 2) s
  ((StanMath.cholesky_corr_constrain (p.1.map VarScalar.val) K).map to_var_value, p.2)

/-- Mirrors `reader::var_cholesky_factor_corr_constrain<Jacobian>(K,
lp)`: as in the plain instantiation, both branches of `if (Jacobian)`
call the accumulating overload. -/
noncomputable def var_cholesky_factor_corr_constrain_lp (J : Bool) (K : Nat)
    (s : RState ℝ) (lp : ℝ) : List (List VarScalar) × RState ℝ × ℝ :=
  if J then
    let p := var_vector ((K * (K - 1)) / 2) s
    let r := StanMath.cholesky_corr_constrain_lp (p.1.map VarScalar.val) K lp
    (r.1.map to_var_value, p.2, r.2)
  else
    let p := var_vector ((K * (K - 1)) / 2) s
    let r := StanMath.cholesky_corr_constrain_lp (p.1.map VarScalar.val) K lp
    (r.1.map to_var_value, p.2, r.2)

/-- Whether a reader call returned normally. -/
def exOk : Except CppExc β → Bool
  | .ok _ => true
  | .error _ => false

/-- Iterated `scalar()` calls, keeping the reader state. -/
def scalarIter : Nat → RState α → RState α
  | 0, s => s
  | n + 1, s => scalarIter n (scalar s).2

theorem scalar_ok (s : RState α) (h : s.pos < s.reals.length) :
    scalar s = (.ok (s.reals.get ⟨s.pos, h⟩), { s with pos := s.pos + 1 }) := by
  simp only [scalar]
  rw [dif_neg (by omega)]

theorem scalar_exhausted (s : RState α) (h : s.reals.length ≤ s.pos) :
    scalar s = (.error (.runtimeError "no more scalars to read"), s) := by
  simp only [scalar]
  rw [dif_pos h]

theorem integer_ok (s : RState α) (h : s.intPos < s.ints.length) :
    integer s = (.ok (s.ints.get ⟨s.intPos, h⟩), { s with intPos := s.intPos + 1 }) := by
  simp only [integer]
  rw [dif_neg (by omega)]

theorem integer_exhausted (s : RState α) (h : s.ints.length ≤ s.intPos) :
    integer s = (.error (.runtimeError "no more integers to read."), s) := by
  simp only [integer]
  rw [dif_pos h]

theorem scalarIter_pos (n : Nat) (s : RState α) (h : s.pos ≤ s.reals.length) :
    (scalarIter n s).pos = min (s.pos + n) s.reals.length ∧
      (scalarIter n s).reals = s.reals := by
  induction n generalizing s with
  | zero => simpa [scalarIter] using by omega
  | succ n ih =>
    by_cases hp : s.pos < s.reals.length
    · have := ih { s with pos := s.pos + 1 } (by simpa using hp)
      simp only [scalarIter, scalar_ok s hp] at *
      refine ⟨?_, this.2⟩
      rw [this.1]
      omega
    · have hge : s.reals.length ≤ s.pos := by omega
      have := ih s h
      simp only [scalarIter, scalar_exhausted s hge] at *
      refine ⟨?_, this.2⟩
      rw [this.1]
      omega

end StanIO

namespace StanIO

/-- C7: `scalar()` returns `reals[pos]` and advances `pos` by one
whenever `pos < Nr`; it fails with the stream-exhaustion error, leaving
the state alone, if and only if `pos ≥ Nr` at the time of the call —
so on a fresh reader over an `Nr`-length buffer the `n`-th call
(0-based) succeeds exactly when `n < Nr`, and the `(Nr+1)`-th call is
the first to fail. -/
theorem claim_C7_scalar_contract (reals : List ℝ) (ints : List Int) (n : Nat) :
    (∀ (s : RState ℝ) (h : s.pos < s.reals.length),
        scalar s = (.ok (s.reals.get ⟨s.pos, h⟩), { s with pos := s.pos + 1 })) ∧
    (∀ s : RState ℝ, s.reals.length ≤ s.pos →
        scalar s = (.error (.runtimeError "no more scalars to read"), s)) ∧
    (exOk (scalar (scalarIter n (mkReader reals ints))).1 = true ↔ n < reals.length) := by
  refine ⟨fun s h => scalar_ok s h, fun s h => scalar_exhausted s h, ?_⟩
  have hfresh : (mkReader reals ints : RState ℝ).pos ≤ (mkReader reals ints : RState ℝ).reals.length := by
    simp [mkReader]
  obtain ⟨hpos, hreals⟩ := scalarIter_pos n (mkReader reals ints) hfresh
  constructor
  · intro hok
    by_contra hn
    have hge : (scalarIter n (mkReader reals ints)).reals.length ≤ (scalarIter n (mkReader reals ints)).pos := by
      rw [hreals, hpos]
      simp only [mkReader]
      omega
    rw [scalar_exhausted _ hge] at hok
    simp [exOk] at hok
  · intro hn
    have hlt : (scalarIter n (mkReader reals ints)).pos < (scalarIter n (mkReader reals ints)).reals.length := by
      rw [hreals, hpos]
      simp only [mkReader]
      omega
    rw [scalar_ok _ hlt]
    simp [exOk]

/-- C7 witness: on the 1-element buffer `[7]`, the first call succeeds
(returning the element and advancing to position 1) and the second call
— the `(Nr+1)`-th — fails. -/
theorem claim_C7_witness :
    scalar (mkReader [(7 : ℝ)] []) =
      (.ok (7 : ℝ), { mkReader [(7 : ℝ)] [] with pos := 1 }) ∧
    exOk (scalar (scalarIter 1 (mkReader [(7 : ℝ)] []))).1 = false := by
  constructor
  · have h := (claim_C7_scalar_contract [(7 : ℝ)] [] 0).1
      (mkReader [(7 : ℝ)] []) (by simp [mkReader])
    simpa [mkReader] using h
  · have h := (claim_C7_scalar_contract [(7 : ℝ)] [] 1).2.2
    cases hb : exOk (scalar (scalarIter 1 (mkReader [(7 : ℝ)] []))).1
    · rfl
    · exact absurd (h.mp hb) (by norm_num)

theorem integer_lb_step (lb : Int) (s : RState α) (h : s.intPos < s.ints.length) :
    (integer_lb lb s).2 = { s with intPos := s.intPos + 1 } ∧
    (integer_lb lb s).1 = if s.ints.get ⟨s.intPos, h⟩ ≥ lb
      then .ok (s.ints.get ⟨s.intPos, h⟩)
      else .error (.runtimeError "required value greater than or equal to lb") := by
  simp only [integer_lb, integer_ok s h, List.get_eq_getElem]
  split_ifs
  all_goals exact ⟨rfl, rfl⟩

theorem integer_ub_step (ub : Int) (s : RState α) (h : s.intPos < s.ints.length) :
    (integer_ub ub s).2 = { s with intPos := s.intPos + 1 } ∧
    (integer_ub ub s).1 = if s.ints.get ⟨s.intPos, h⟩ ≤ ub
      then .ok (s.ints.get ⟨s.intPos, h⟩)
      else .error (.runtimeError "required value less than or equal to ub") := by
  simp only [integer_ub, integer_ok s h, List.get_eq_getElem]
  split_ifs
  all_goals exact ⟨rfl, rfl⟩

theorem integer_lub_state (lb ub : Int) (s : RState α) (h : s.intPos < s.ints.length) :
    (integer_lub lb ub s).2 = { s with intPos := s.intPos + 1 } := by
  simp only [integer_lub, integer_ok s h]
  split_ifs <;> rfl

theorem integer_lub_badBounds (lb ub : Int) (s : RState α)
    (h : s.intPos < s.ints.length) (hlb : lb > ub) :
    integer_lub lb ub s =
      (.error (.runtimeError "lower bound must be less than or equal to ub"),
       { s with intPos := s.intPos + 1 }) := by
  simp only [integer_lub, integer_ok s h]
  simp [hlb]

/-- C10: when `scalar()` or `integer()` fails with stream exhaustion
the whole reader state (hence `available()` / `available_i()`) is
unchanged, since the exhaustion check precedes the increment — in
contrast to the bounded-integer reads, which advance `int_pos` before
validating. -/
theorem claim_C10_exhaustion_frame (s : RState ℝ) (lb ub : Int) :
    (s.reals.length ≤ s.pos →
      scalar s = (.error (.runtimeError "no more scalars to read"), s)) ∧
    (s.ints.length ≤ s.intPos →
      integer s = (.error (.runtimeError "no more integers to read."), s)) ∧
    (s.intPos < s.ints.length →
      (integer_lb lb s).2.intPos = s.intPos + 1 ∧
      (integer_ub ub s).2.intPos = s.intPos + 1 ∧
      (integer_lub lb ub s).2.intPos = s.intPos + 1) := by
  refine ⟨fun h => scalar_exhausted s h, fun h => integer_exhausted s h, fun h => ?_⟩
  refine ⟨?_, ?_, ?_⟩
  · rw [(integer_lb_step lb s h).1]
  · rw [(integer_ub_step ub s h).1]
  · rw [integer_lub_state lb ub s h]

/-- C10 witness: on empty buffers both extractors fail leaving the
fresh state intact, and with one integer available `integer_lb 0`
advances `int_pos` to 1. -/
theorem claim_C10_witness :
    scalar (mkReader ([] : List ℝ) []) =
      (.error (.runtimeError "no more scalars to read"), mkReader ([] : List ℝ) []) ∧
    integer (mkReader ([] : List ℝ) []) =
      (.error (.runtimeError "no more integers to read."), mkReader ([] : List ℝ) []) ∧
    (integer_lb 0 (mkReader ([] : List ℝ) [5])).2.intPos = 0 + 1 := by
  have h1 := claim_C10_exhaustion_frame (mkReader ([] : List ℝ) []) 0 0
  have h2 := claim_C10_exhaustion_frame (mkReader ([] : List ℝ) [5]) 0 0
  exact ⟨h1.1 (by simp [mkReader]), h1.2.1 (by simp [mkReader]),
    by simpa [mkReader] using (h2.2.2 (by simp [mkReader])).1⟩

/-- C5: each bounded-integer read consumes exactly one integer before
any validation, so `int_pos` is advanced by one even when the call then
fails; on integer stream `[5]`, `integer_lb 10` raises the
domain-violation error and still leaves `int_pos` at 1. -/
theorem claim_C5_bounded_integer_consumption (s : RState ℝ) (lb ub : Int)
    (h : s.intPos < s.ints.length) :
    (integer_lb lb s).2.intPos = s.intPos + 1 ∧
    (integer_ub ub s).2.intPos = s.intPos + 1 ∧
    (integer_lub lb ub s).2.intPos = s.intPos + 1 ∧
    (s.ints.get ⟨s.intPos, h⟩ < lb →
      (integer_lb lb s).1 =
        .error (.runtimeError "required value greater than or equal to lb")) ∧
    integer_lb 10 (mkReader ([] : List ℝ) [5]) =
      (.error (.runtimeError "required value greater than or equal to lb"),
       { mkReader ([] : List ℝ) [5] with intPos := 1 }) := by
  obtain ⟨hs1, hv1⟩ := integer_lb_step lb s h
  refine ⟨by rw [hs1], by rw [(integer_ub_step ub s h).1], by rw [integer_lub_state lb ub s h],
    fun hlt => ?_, ?_⟩
  · rw [hv1, if_neg (by omega)]
  · rfl

/-- C5 witness: the consumption equalities and the concrete `[5]` /
`integer_lb 10` scenario, instantiated with one integer available. -/
theorem claim_C5_witness :
    (integer_lb 10 (mkReader ([] : List ℝ) [5])).2.intPos = 0 + 1 ∧
    (integer_lb 10 (mkReader ([] : List ℝ) [5])).1 =
      .error (.runtimeError "required value greater than or equal to lb") := by
  have h := claim_C5_bounded_integer_consumption (mkReader ([] : List ℝ) [5]) 10 0
    (by simp [mkReader])
  refine ⟨by simpa [mkReader] using h.1, ?_⟩
  exact h.2.2.2.1 (by decide)

/-- C6 counterexample: at `lb = 10 > 0 = ub` on integer stream `[5]`,
`integer_lub` fails with a `std::runtime_error`, which is not in the
`std::invalid_argument` class the claim asserts (the class used by the
zero-size failures). -/
theorem claim_C6_counterexample :
    (integer_lub 10 0 (mkReader ([] : List ℝ) [5])).1 =
      .error (.runtimeError "lower bound must be less than or equal to ub") ∧
    CppExc.isInvalidArgumentClass
      (.runtimeError "lower bound must be less than or equal to ub") = false ∧
    (simplex_constrain 0 (mkReader ([] : List ℝ) [5])).1 =
      .error (.invalidArgument "io::simplex_constrain: simplexes cannot be size 0.") ∧
    CppExc.isInvalidArgumentClass
      (.invalidArgument "io::simplex_constrain: simplexes cannot be size 0.") = true := by
  refine ⟨?_, rfl, ?_, rfl⟩
  · rw [Prod.ext_iff.mp (integer_lub_badBounds 10 0 (mkReader ([] : List ℝ) [5])
      (by simp [mkReader]) (by omega)) |>.1]
  · simp [simplex_constrain]

/-- C6 amended: for every `lb > ub` (with an integer available to
consume first), `integer_lub` fails with
`std::runtime_error("lower bound must be less than or equal to ub")` —
the same exception class as the out-of-bounds domain violations but a
distinct message, and a different exception class from the zero-size
failures, which throw `std::invalid_argument`. -/
theorem claim_C6_amended_lub_error (s : RState ℝ) (lb ub : Int)
    (hlb : lb > ub) (h : s.intPos < s.ints.length) :
    integer_lub lb ub s =
      (.error (.runtimeError "lower bound must be less than or equal to ub"),
       { s with intPos := s.intPos + 1 }) ∧
    CppExc.isInvalidArgumentClass
      (.runtimeError "lower bound must be less than or equal to ub") = false ∧
    CppExc.isInvalidArgumentClass
      (.runtimeError "required value greater than or equal to lb") = false ∧
    CppExc.runtimeError "lower bound must be less than or equal to ub" ≠
      CppExc.runtimeError "required value greater than or equal to lb" ∧
    (∀ t : RState ℝ, (simplex_constrain 0 t).1 =
      .error (.invalidArgument "io::simplex_constrain: simplexes cannot be size 0.")) ∧
    CppExc.isInvalidArgumentClass
      (.invalidArgument "io::simplex_constrain: simplexes cannot be size 0.") = true := by
  refine ⟨integer_lub_badBounds lb ub s h hlb, rfl, rfl, by simp, fun t => ?_, rfl⟩
  simp [simplex_constrain]

/-- C6 witness: the amended statement instantiated at `lb = 10`,
`ub = 0`, integer stream `[5]`. -/
theorem claim_C6_witness :
    integer_lub 10 0 (mkReader ([] : List ℝ) [5]) =
      (.error (.runtimeError "lower bound must be less than or equal to ub"),
       { mkReader ([] : List ℝ) [5] with intPos := 0 + 1 }) := by
  have h := claim_C6_amended_lub_error (mkReader ([] : List ℝ) [5]) 10 0
    (by omega) (by simp [mkReader])
  simpa [mkReader] using h.1

end StanIO

namespace StanIO

/-- C8: for `m, n ≥ 1`, `matrix(m, n)` consumes the next `m*n` raw
scalars (advancing `pos` by `m*n`) and places the `k`-th consumed
scalar at row `k mod m`, column `k / m` of the returned `m×n`
column-major view; if either dimension is 0 it returns an empty view
and consumes nothing. -/
theorem claim_C8_matrix_layout (m n k : Nat) (s : RState ℝ)
    (hm : 1 ≤ m) (hn : 1 ≤ n) (hk : k < m * n) :
    (matrix m n s).2 = { s with pos := s.pos + m * n } ∧
    (matrix m n s).1.rows = m ∧
    (matrix m n s).1.cols = n ∧
    (matrix m n s).1.entry (k % m) (k / m) = s.reals[s.pos + k]? ∧
    (∀ (q : Nat) (t : RState ℝ), (matrix 0 q t).2 = t ∧
      ∀ i j : Nat, (matrix 0 q t).1.entry i j = none) ∧
    (∀ (q : Nat) (t : RState ℝ), (matrix q 0 t).2 = t ∧
      ∀ i j : Nat, (matrix q 0 t).1.entry i j = none) := by
  have hne : ¬ (m = 0 ∨ n = 0) := by omega
  refine ⟨?_, ?_, ?_, ?_, ?_, ?_⟩
  · simp only [matrix, if_neg hne]
  · simp only [matrix, if_neg hne]
  · simp only [matrix, if_neg hne]
  · simp only [matrix, if_neg hne]
    rw [Nat.add_assoc, Nat.div_add_mod']
  · intro q t
    constructor
    · simp [matrix]
    · intro i j
      simp [matrix]
  · intro q t
    constructor
    · simp [matrix]
    · intro i j
      simp [matrix]

/-- C8 witness: a 2×3 read over buffer `[1..6]`: the 4-th consumed
scalar (0-based) lands at row `4 mod 2 = 0`, column `4 / 2 = 2`, and
`pos` advances by 6. -/
theorem claim_C8_witness :
    (matrix 2 3 (mkReader [(1 : ℝ), 2, 3, 4, 5, 6] [])).1.entry (4 % 2) (4 / 2) =
      some (5 : ℝ) ∧
    (matrix 2 3 (mkReader [(1 : ℝ), 2, 3, 4, 5, 6] [])).2.pos = 2 * 3 := by
  have h := claim_C8_matrix_layout 2 3 4 (mkReader [(1 : ℝ), 2, 3, 4, 5, 6] [])
    (by norm_num) (by norm_num) (by norm_num)
  constructor
  · rw [h.2.2.2.1]
    rfl
  · rw [h.1]
    rfl

/-- C3: for every `k ≥ 1`, `unit_vector_constrain(k)` succeeds and
consumes exactly `k` raw scalars (advancing `pos` by `k`, unlike
`simplex_constrain(k)`, which advances it by `k - 1`), and
`unit_vector_constrain(0)` fails with the `std::invalid_argument`
zero-dimension error, consuming nothing. -/
theorem claim_C3_unit_vector_consumption (k : Nat) (s : RState ℝ) (hk : 1 ≤ k) :
    (unit_vector_constrain k s).2 = { s with pos := s.pos + k } ∧
    exOk (unit_vector_constrain k s).1 = true ∧
    (simplex_constrain k s).2 = { s with pos := s.pos + (k - 1) } ∧
    (unit_vector_constrain 0 s).1 =
      .error (.invalidArgument "io::unit_vector_constrain: unit vectors cannot be size 0.") ∧
    (unit_vector_constrain 0 s).2 = s := by
  have hk0 : ¬ (k = 0) := by omega
  refine ⟨?_, ?_, ?_, by simp [unit_vector_constrain], by simp [unit_vector_constrain]⟩
  · simp only [unit_vector_constrain, if_neg hk0, vector, if_neg hk0]
  · simp only [unit_vector_constrain, if_neg hk0, exOk]
  · by_cases h1 : k - 1 = 0
    · simp only [simplex_constrain, if_neg hk0, vector, if_pos h1, h1]
      simp
    · simp only [simplex_constrain, if_neg hk0, vector, if_neg h1]

/-- C3 witness: `unit_vector_constrain 3` on a 4-scalar buffer advances
`pos` to 3 and succeeds, while `simplex_constrain 3` advances it to
2. -/
theorem claim_C3_witness :
    (unit_vector_constrain 3 (mkReader [(1 : ℝ), 2, 3, 4] [])).2.pos = 0 + 3 ∧
    exOk (unit_vector_constrain 3 (mkReader [(1 : ℝ), 2, 3, 4] [])).1 = true ∧
    (simplex_constrain 3 (mkReader [(1 : ℝ), 2, 3, 4] [])).2.pos = 0 + (3 - 1) := by
  have h := claim_C3_unit_vector_consumption 3 (mkReader [(1 : ℝ), 2, 3, 4] [])
    (by norm_num)
  exact ⟨by rw [h.1]; rfl, h.2.1, by rw [h.2.2.1]; rfl⟩

end StanIO

namespace StanIO

theorem op_step_counts (op : Op) (s : RState ℝ)
    (hr : op.rawCount ≤ available s) (hi : op.intCount ≤ available_i s) :
    (op.step s).pos = s.pos + op.rawCount ∧
    (op.step s).intPos = s.intPos + op.intCount ∧
    (op.step s).reals = s.reals ∧
    (op.step s).ints = s.ints := by
  cases op with
  | opScalar =>
    have h : s.pos < s.reals.length := by
      simp only [Op.rawCount, available] at hr
      omega
    simp [Op.step, Op.rawCount, Op.intCount, scalar_ok s h]
  | opInteger =>
    have h : s.intPos < s.ints.length := by
      simp only [Op.intCount, available_i] at hi
      omega
    simp [Op.step, Op.rawCount, Op.intCount, integer_ok s h]
  | opStdVector m =>
    simp only [Op.step, Op.rawCount, Op.intCount, std_vector]
    split_ifs with h
    · simp [h]
    · simp
  | opVector m =>
    simp only [Op.step, Op.rawCount, Op.intCount, vector]
    split_ifs with h
    · simp [h]
    · simp
  | opRowVector m =>
    simp only [Op.step, Op.rawCount, Op.intCount, row_vector]
    split_ifs with h
    · simp [h]
    · simp
  | opMatrix m n =>
    simp only [Op.step, Op.rawCount, Op.intCount, matrix]
    split_ifs with h
    · rcases h with h | h <;> simp [h]
    · simp
  | opIntegerLb lb =>
    have h : s.intPos < s.ints.length := by
      simp only [Op.intCount, available_i] at hi
      omega
    simp [Op.step, Op.rawCount, Op.intCount, (integer_lb_step lb s h).1]
  | opIntegerUb ub =>
    have h : s.intPos < s.ints.length := by
      simp only [Op.intCount, available_i] at hi
      omega
    simp [Op.step, Op.rawCount, Op.intCount, (integer_ub_step ub s h).1]
  | opIntegerLub lb ub =>
    have h : s.intPos < s.ints.length := by
      simp only [Op.intCount, available_i] at hi
      omega
    simp [Op.step, Op.rawCount, Op.intCount, integer_lub_state lb ub s h]
  | opScalarPosConstrain =>
    have h : s.pos < s.reals.length := by
      simp only [Op.rawCount, available] at hr
      omega
    simp [Op.step, Op.rawCount, Op.intCount, scalar_pos_constrain, scalar_ok s h]
  | opUnitVectorConstrain k =>
    simp only [Op.step, Op.rawCount, Op.intCount, unit_vector_constrain, vector]
    split_ifs with h
    · simp [h]
    · simp
  | opSimplexConstrain k =>
    simp only [Op.step, Op.rawCount, Op.intCount, simplex_constrain, vector]
    split_ifs with h h2
    · simp [h]
    · simp [h2]
    · simp
  | opOrderedConstrain k =>
    simp only [Op.step, Op.rawCount, Op.intCount, ordered_constrain, vector]
    split_ifs with h
    · simp [h]
    · simp
  | opPositiveOrderedConstrain k =>
    simp only [Op.step, Op.rawCount, Op.intCount, positive_ordered_constrain, vector]
    split_ifs with h
    · simp [h]
    · simp
  | opCholCorrConstrain K =>
    simp only [Op.step, Op.rawCount, Op.intCount, cholesky_factor_corr_constrain, vector]
    split_ifs with h
    · simp [h]
    · simp

theorem runOps_append (a b : List Op) (s : RState ℝ) :
    runOps (a ++ b) s = runOps b (runOps a s) := by
  induction a generalizing s with
  | nil => rfl
  | cons op rest ih => simp [runOps, ih]

theorem okCounts_append (a b : List Op) (s : RState ℝ) (h : okCounts (a ++ b) s) :
    okCounts a s ∧ okCounts b (runOps a s) := by
  induction a generalizing s with
  | nil => exact ⟨trivial, h⟩
  | cons op rest ih =>
    obtain ⟨h1, h2, h3⟩ := h
    obtain ⟨ha, hb⟩ := ih (op.step s) h3
    exact ⟨⟨h1, h2, ha⟩, by simpa [runOps] using hb⟩

theorem runOps_invariant (ops : List Op) (s : RState ℝ)
    (hok : okCounts ops s) (hp : s.pos ≤ s.reals.length)
    (hq : s.intPos ≤ s.ints.length) :
    (runOps ops s).pos = s.pos + rawSum ops ∧
    (runOps ops s).intPos = s.intPos + intSum ops ∧
    (runOps ops s).reals = s.reals ∧
    (runOps ops s).ints = s.ints ∧
    (runOps ops s).pos ≤ s.reals.length ∧
    (runOps ops s).intPos ≤ s.ints.length := by
  induction ops generalizing s with
  | nil => exact ⟨by simp [runOps, rawSum], by simp [runOps, intSum], rfl, rfl, by simpa [runOps], by simpa [runOps]⟩
  | cons op rest ih =>
    obtain ⟨h1, h2, h3⟩ := hok
    obtain ⟨e1, e2, e3, e4⟩ := op_step_counts op s h1 h2
    have hp' : (op.step s).pos ≤ (op.step s).reals.length := by
      rw [e1, e3]
      simp only [available] at h1
      omega
    have hq' : (op.step s).intPos ≤ (op.step s).ints.length := by
      rw [e2, e4]
      simp only [available_i] at h2
      omega
    obtain ⟨f1, f2, f3, f4, f5, f6⟩ := ih (op.step s) h3 hp' hq'
    refine ⟨?_, ?_, ?_, ?_, ?_, ?_⟩
    · rw [show runOps (op :: rest) s = runOps rest (op.step s) from rfl, f1, e1]
      simp [rawSum]
      omega
    · rw [show runOps (op :: rest) s = runOps rest (op.step s) from rfl, f2, e2]
      simp [intSum]
      omega
    · rw [show runOps (op :: rest) s = runOps rest (op.step s) from rfl, f3, e3]
    · rw [show runOps (op :: rest) s = runOps rest (op.step s) from rfl, f4, e4]
    · rw [show runOps (op :: rest) s = runOps rest (op.step s) from rfl]
      rw [e3] at f5
      exact f5
    · rw [show runOps (op :: rest) s = runOps rest (op.step s) from rfl]
      rw [e4] at f6
      exact f6

/-- C2 counterexample: the claim's invariant `0 ≤ pos ≤ Nr` is asserted
to hold "including bulk reads vector(m)/matrix(m,n) when m (or m*n)
exceeds the remaining buffer length", but `vector(5)` on a 1-element
buffer advances `pos` to 5 without any bounds check, so `pos ≤ Nr`
fails and the conceptual `Nr - pos` is negative. -/
theorem claim_C2_counterexample :
    (Op.step (Op.opVector 5) (mkReader [(0 : ℝ)] [])).pos = 5 ∧
    (mkReader [(0 : ℝ)] []).reals.length = 1 ∧
    ¬ ((Op.step (Op.opVector 5) (mkReader [(0 : ℝ)] [])).pos ≤
        (Op.step (Op.opVector 5) (mkReader [(0 : ℝ)] [])).reals.length) ∧
    ((Op.step (Op.opVector 5) (mkReader [(0 : ℝ)] [])).reals.length : Int) -
        ((Op.step (Op.opVector 5) (mkReader [(0 : ℝ)] [])).pos : Int) < 0 := by
  refine ⟨rfl, rfl, ?_, ?_⟩
  · show ¬ (5 ≤ 1)
    omega
  · show (1 : Int) - (5 : Int) < 0
    omega

/-- C2 amended: for every constructed stream and every call sequence
each of whose calls finds at least its documented raw count (and
integer count) still available, `available()` decreases by exactly the
documented raw count of each operation and never goes negative, and the
cursor invariant `0 ≤ pos ≤ Nr` with `pos` (and `int_pos`)
monotonically non-decreasing holds after every prefix of the sequence;
bulk reads themselves perform no bounds check, so the in-bounds
hypothesis is necessary (see the counterexample). -/
theorem claim_C2_amended_cursor_invariant (s : RState ℝ)
    (ops ops1 ops2 : List Op) (hsplit : ops = ops1 ++ ops2)
    (hok : okCounts ops s) (hp : s.pos ≤ s.reals.length)
    (hq : s.intPos ≤ s.ints.length) :
    (runOps ops1 s).pos = s.pos + rawSum ops1 ∧
    (runOps ops1 s).pos ≤ s.reals.length ∧
    available (runOps ops1 s) = available s - rawSum ops1 ∧
    (runOps ops1 s).intPos = s.intPos + intSum ops1 ∧
    (runOps ops1 s).intPos ≤ s.ints.length ∧
    available_i (runOps ops1 s) = available_i s - intSum ops1 ∧
    (runOps ops1 s).pos ≤ (runOps ops s).pos ∧
    (runOps ops1 s).intPos ≤ (runOps ops s).intPos := by
  subst hsplit
  obtain ⟨hok1, hok2⟩ := okCounts_append ops1 ops2 s hok
  obtain ⟨e1, e2, e3, e4, e5, e6⟩ := runOps_invariant ops1 s hok1 hp hq
  obtain ⟨f1, f2, f3, f4, f5, f6⟩ := runOps_invariant ops2 (runOps ops1 s) hok2
    (by rw [e3]; exact e5) (by rw [e4]; exact e6)
  rw [runOps_append]
  refine ⟨e1, e5, ?_, e2, e6, ?_, ?_, ?_⟩
  · simp only [available]
    rw [e3, e1]
    omega
  · simp only [available_i]
    rw [e4, e2]
    omega
  · rw [f1]
    omega
  · rw [f2]
    omega

/-- C2 witness: a concrete in-bounds trace — `scalar()`, `vector(2)`,
`integer_lb(0)`, `simplex_constrain(3)` over buffers of 5 reals and 1
integer — where the prefix of the first two calls has consumed exactly
3 scalars and `available()` has dropped from 5 to 2. -/
theorem claim_C2_witness :
    (runOps [Op.opScalar, Op.opVector 2] (mkReader [(1 : ℝ), 2, 3, 4, 5] [7])).pos =
      (mkReader [(1 : ℝ), 2, 3, 4, 5] [7]).pos + rawSum [Op.opScalar, Op.opVector 2] ∧
    available (runOps [Op.opScalar, Op.opVector 2] (mkReader [(1 : ℝ), 2, 3, 4, 5] [7])) =
      available (mkReader [(1 : ℝ), 2, 3, 4, 5] [7]) - rawSum [Op.opScalar, Op.opVector 2] ∧
    (runOps [Op.opScalar, Op.opVector 2] (mkReader [(1 : ℝ), 2, 3, 4, 5] [7])).pos ≤
      (runOps ([Op.opScalar, Op.opVector 2] ++ [Op.opIntegerLb 0, Op.opSimplexConstrain 3])
        (mkReader [(1 : ℝ), 2, 3, 4, 5] [7])).pos := by
  have h := claim_C2_amended_cursor_invariant (mkReader [(1 : ℝ), 2, 3, 4, 5] [7])
    ([Op.opScalar, Op.opVector 2] ++ [Op.opIntegerLb 0, Op.opSimplexConstrain 3])
    [Op.opScalar, Op.opVector 2] [Op.opIntegerLb 0, Op.opSimplexConstrain 3] rfl
    (by
      norm_num [Op.rawCount, Op.intCount, available, available_i, Op.step, okCounts,
        scalar, vector, integer_lb, integer, simplex_constrain, mkReader])
    (by simp [mkReader]) (by simp [mkReader])
  exact ⟨h.1, h.2.2.1, h.2.2.2.2.2.2.1⟩

theorem inv_logit_pos (t : ℝ) : 0 < StanMath.inv_logit t := by
  unfold StanMath.inv_logit
  positivity

theorem inv_logit_lt_one (t : ℝ) : StanMath.inv_logit t < 1 := by
  unfold StanMath.inv_logit
  rw [div_lt_one (by positivity)]
  have := Real.exp_pos (-t)
  linarith

theorem stickBreak_sum (ys : List ℝ) (stick : ℝ) :
    (StanMath.stickBreak stick ys).sum = stick := by
  induction ys generalizing stick with
  | nil => simp [StanMath.stickBreak]
  | cons y ys ih =>
    simp only [StanMath.stickBreak, List.sum_cons, ih]
    ring

theorem stickBreak_length (ys : List ℝ) (stick : ℝ) :
    (StanMath.stickBreak stick ys).length = ys.length + 1 := by
  induction ys generalizing stick with
  | nil => rfl
  | cons y ys ih => simp [StanMath.stickBreak, ih]

theorem stickBreak_pos (ys : List ℝ) (stick : ℝ) (h : 0 < stick) :
    ∀ x ∈ StanMath.stickBreak stick ys, 0 < x := by
  induction ys generalizing stick with
  | nil =>
    intro x hx
    simp only [StanMath.stickBreak, List.mem_singleton] at hx
    exact hx ▸ h
  | cons y ys ih =>
    intro x hx
    simp only [StanMath.stickBreak, List.mem_cons] at hx
    rcases hx with hx | hx
    · have hz := inv_logit_pos (y - Real.log (ys.length + 1))
      exact hx ▸ mul_pos h hz
    · refine ih _ ?_ x hx
      have hz1 := inv_logit_lt_one (y - Real.log (ys.length + 1))
      have hz0 := inv_logit_pos (y - Real.log (ys.length + 1))
      nlinarith

theorem vector_length (m : Nat) (s : RState ℝ) (h : m ≤ available s) :
    ((vector m s).1).length = m := by
  unfold vector
  split_ifs with h0
  · simp [h0]
  · simp only [available] at h
    simp only [List.length_take, List.length_drop]
    omega

theorem simplex_constrain_zero_zero :
    StanMath.simplex_constrain [(0 : ℝ), 0] = [1 / 3, 1 / 3, 1 / 3] := by
  have h2 : Real.exp (Real.log 2) = 2 := Real.exp_log (by norm_num)
  have hneg : -((0 : ℝ) - Real.log (1 + 1)) = Real.log 2 := by norm_num
  simp only [StanMath.simplex_constrain, StanMath.stickBreak, StanMath.inv_logit]
  norm_num [hneg, h2, Real.log_one, Real.exp_zero]

/-- C4: for every `k ≥ 1` with at least `k-1` scalars remaining,
`simplex_constrain(k)` consumes exactly `k-1` raw scalars and returns a
length-`k` vector of strictly positive entries summing exactly to 1 (so
certainly within `1e-9`); `simplex_constrain(0)` fails with the
`std::invalid_argument` zero-dimension error; and on raw input
`[0, 0]`, `simplex_constrain(3)` returns `[1/3, 1/3, 1/3]`. -/
theorem claim_C4_simplex (k : Nat) (s : RState ℝ) (hk : 1 ≤ k)
    (hav : k - 1 ≤ available s) :
    (simplex_constrain k s).2 = { s with pos := s.pos + (k - 1) } ∧
    (∃ v, (simplex_constrain k s).1 = .ok v ∧ v.length = k ∧
      (∀ x ∈ v, 0 < x) ∧ v.sum = 1 ∧ |v.sum - 1| ≤ 1 / 1000000000) ∧
    (simplex_constrain 0 s).1 =
      .error (.invalidArgument "io::simplex_constrain: simplexes cannot be size 0.") ∧
    (simplex_constrain 0 s).2 = s ∧
    (simplex_constrain 3 (mkReader [(0 : ℝ), 0] [])).1 = .ok [1 / 3, 1 / 3, 1 / 3] := by
  have hk0 : ¬ (k = 0) := by omega
  refine ⟨?_, ?_, by simp [simplex_constrain], by simp [simplex_constrain], ?_⟩
  · by_cases h1 : k - 1 = 0
    · simp only [simplex_constrain, if_neg hk0, vector, if_pos h1, h1]
      simp
    · simp only [simplex_constrain, if_neg hk0, vector, if_neg h1]
  · refine ⟨StanMath.simplex_constrain ((vector (k - 1) s).1), ?_, ?_, ?_, ?_, ?_⟩
    · simp only [simplex_constrain, if_neg hk0]
    · unfold StanMath.simplex_constrain
      rw [stickBreak_length, vector_length (k - 1) s hav]
      omega
    · exact stickBreak_pos _ 1 one_pos
    · exact stickBreak_sum _ 1
    · unfold StanMath.simplex_constrain
      rw [stickBreak_sum]
      norm_num
  · have hv : (vector 2 (mkReader [(0 : ℝ), 0] [])).1 = [(0 : ℝ), 0] := rfl
    simp only [simplex_constrain, show (3 : Nat) - 1 = 2 from rfl, if_neg (by norm_num : ¬(3 = 0)), hv,
      simplex_constrain_zero_zero]

/-- C4 witness: the theorem instantiated at `k = 3` over raw reals
`[0, 0]`: the result is `[1/3, 1/3, 1/3]` and `pos` advances by 2. -/
theorem claim_C4_witness :
    (simplex_constrain 3 (mkReader [(0 : ℝ), 0] [])).1 = .ok [1 / 3, 1 / 3, 1 / 3] ∧
    (simplex_constrain 3 (mkReader [(0 : ℝ), 0] [])).2.pos = 0 + (3 - 1) := by
  have h := claim_C4_simplex 3 (mkReader [(0 : ℝ), 0] []) (by norm_num)
    (by norm_num [available, mkReader])
  exact ⟨h.2.2.2.2, by rw [h.1]; rfl⟩

theorem tanh_one_sq_lt_one : Real.tanh 1 ^ 2 < 1 := by
  have hc := Real.cosh_pos 1
  have hd := Real.cosh_sq_sub_sinh_sq 1
  rw [Real.tanh_eq_sinh_div_cosh, div_pow, div_lt_one (by positivity)]
  nlinarith

theorem tanh_one_pos : 0 < Real.tanh 1 := by
  rw [Real.tanh_eq_sinh_div_cosh]
  have hs : 0 < Real.sinh 1 := Real.sinh_pos_iff.mpr (by norm_num)
  exact div_pos hs (Real.cosh_pos 1)

theorem log_one_sub_tanh_one_sq_ne_zero :
    Real.log (1 - Real.tanh 1 ^ 2) ≠ 0 := by
  have h1 : 0 < 1 - Real.tanh 1 ^ 2 := by nlinarith [tanh_one_sq_lt_one]
  have h2 : 1 - Real.tanh 1 ^ 2 < 1 := by nlinarith [tanh_one_pos]
  exact ne_of_lt (Real.log_neg h1 h2)

/-- C1 (code bug): the Jacobian flag is honored by the scalar entries of
the catalog — `scalar_pos_constrain<false>(lp)` leaves `lp` untouched
and `scalar_pos_constrain<true>(lp)` adds the raw scalar — but
`cholesky_factor_corr_constrain<Jacobian>(K, lp)` passes `lp` to the
accumulating overload in *both* branches of `if (Jacobian)`, so with
the flag false and raw input `[1]` (K = 2) it still adds the non-zero
log-Jacobian `log(1 - tanh(1)²)` to the caller's accumulator, exactly
as the flag-true instantiation does. -/
theorem claim_C1_jacobian_flag_bug :
    (scalar_pos_constrain_lp false (mkReader [(1 : ℝ)] []) 0).2.2 = 0 ∧
    (scalar_pos_constrain_lp true (mkReader [(1 : ℝ)] []) 0).2.2 = 0 + 1 ∧
    (cholesky_factor_corr_constrain_lp false 2 (mkReader [(1 : ℝ)] []) 0).2.2 =
      Real.log (1 - Real.tanh 1 ^ 2) ∧
    (cholesky_factor_corr_constrain_lp false 2 (mkReader [(1 : ℝ)] []) 0).2.2 ≠ 0 ∧
    (cholesky_factor_corr_constrain_lp false 2 (mkReader [(1 : ℝ)] []) 0).2.2 =
      (cholesky_factor_corr_constrain_lp true 2 (mkReader [(1 : ℝ)] []) 0).2.2 := by
  have hval : (cholesky_factor_corr_constrain_lp false 2 (mkReader [(1 : ℝ)] []) 0).2.2 =
      Real.log (1 - Real.tanh 1 ^ 2) := by
    simp [cholesky_factor_corr_constrain_lp, StanMath.cholesky_corr_constrain_lp,
      StanMath.cholCorrRows, StanMath.cholCorrRow, StanMath.cholCorrRowTail,
      vector, mkReader]
  refine ⟨rfl, rfl, hval, ?_, rfl⟩
  rw [hval]
  exact log_one_sub_tanh_one_sq_ne_zero

theorem to_var_value_val (l : List ℝ) :
    (to_var_value l).map VarScalar.val = l := by
  simp [to_var_value, List.map_map, Function.comp_def]

/-- C9 counterexample: for the zero-dimension matrix read the two
backends do not produce the same value — `matrix(0, 3)` is an empty
`0×3` view while `var_matrix(0, 3)` is a `0×0` matrix, so the produced
column counts differ. -/
theorem claim_C9_counterexample :
    (matrix 0 3 (mkReader ([] : List ℝ) [])).1.cols = 3 ∧
    (var_matrix 0 3 (mkReader ([] : List ℝ) [])).1.cols = 0 ∧
    (var_matrix 0 3 (mkReader ([] : List ℝ) [])).1.cols ≠
      (matrix 0 3 (mkReader ([] : List ℝ) [])).1.cols := by
  refine ⟨rfl, rfl, ?_⟩
  show (0 : Nat) ≠ 3
  omega

/-- C9 amended: across the two numeric backends, every embedded
operation pair produces the same scalar values, consumes the same
number of scalars, and adds the same Jacobian terms to the accumulator
— including both backends adding it when the Jacobian flag is false in
the Cholesky-correlation entry — with the single exception that a
zero-dimension `var_matrix` read reports a `0×0` shape where the plain
backend reports `m×n`; for `m, n ≥ 1` the matrix shapes agree too. -/
theorem claim_C9_amended_backend_equivalence (m n k K : Nat) (s : RState ℝ)
    (lp : ℝ) (J : Bool) :
    ((var_vector m s).1.map VarScalar.val = (vector m s).1 ∧
      (var_vector m s).2 = (vector m s).2) ∧
    ((var_row_vector m s).1.map VarScalar.val = (row_vector m s).1 ∧
      (var_row_vector m s).2 = (row_vector m s).2) ∧
    ((∀ i j : Nat,
        ((var_matrix m n s).1.entry i j).map VarScalar.val = (matrix m n s).1.entry i j) ∧
      (var_matrix m n s).2 = (matrix m n s).2 ∧
      (1 ≤ m → 1 ≤ n →
        (var_matrix m n s).1.rows = (matrix m n s).1.rows ∧
        (var_matrix m n s).1.cols = (matrix m n s).1.cols)) ∧
    (Except.map (List.map VarScalar.val) (var_unit_vector_constrain_lp J k s lp).1 =
        (unit_vector_constrain_lp J k s lp).1 ∧
      (var_unit_vector_constrain_lp J k s lp).2 = (unit_vector_constrain_lp J k s lp).2) ∧
    (Except.map (List.map VarScalar.val) (var_simplex_constrain_lp J k s lp).1 =
        (simplex_constrain_lp J k s lp).1 ∧
      (var_simplex_constrain_lp J k s lp).2 = (simplex_constrain_lp J k s lp).2) ∧
    ((var_positive_ordered_constrain k s).1.map VarScalar.val =
        (positive_ordered_constrain k s).1 ∧
      (var_positive_ordered_constrain k s).2 = (positive_ordered_constrain k s).2) ∧
    ((var_cholesky_factor_corr_constrain K s).1.map (List.map VarScalar.val) =
        (cholesky_factor_corr_constrain K s).1 ∧
      (var_cholesky_factor_corr_constrain K s).2 = (cholesky_factor_corr_constrain K s).2) ∧
    ((var_cholesky_factor_corr_constrain_lp J K s lp).1.map (List.map VarScalar.val) =
        (cholesky_factor_corr_constrain_lp J K s lp).1 ∧
      (var_cholesky_factor_corr_constrain_lp J K s lp).2 =
        (cholesky_factor_corr_constrain_lp J K s lp).2) := by
  have hvv : ∀ (q : Nat) (t : RState ℝ),
      (var_vector q t).1.map VarScalar.val = (vector q t).1 ∧
      (var_vector q t).2 = (vector q t).2 := by
    intro q t
    unfold var_vector vector
    split_ifs with h
    · simp
    · simp [to_var_value_val]
  refine ⟨hvv m s, ?_, ⟨?_, ?_, ?_⟩, ?_, ?_, ?_, ?_, ?_⟩
  · unfold var_row_vector row_vector
    split_ifs with h
    · simp
    · simp [to_var_value_val]
  · intro i j
    unfold var_matrix matrix
    split_ifs with h
    · simp
    · simp only []
      rcases s.reals[s.pos + j * m + i]? with _ | x <;> rfl
  · unfold var_matrix matrix
    split_ifs with h
    · rfl
    · rfl
  · intro hm hn
    unfold var_matrix matrix
    rw [if_neg (show ¬ (m = 0 ∨ n = 0) by omega), if_neg (show ¬ (m = 0 ∨ n = 0) by omega)]
    exact ⟨rfl, rfl⟩
  · unfold var_unit_vector_constrain_lp unit_vector_constrain_lp
    obtain ⟨h1, h2⟩ := hvv k s
    split_ifs with h hJ
    · exact ⟨rfl, rfl⟩
    · dsimp only
      rw [h1, h2]
      exact ⟨by simp [Except.map, to_var_value_val], rfl⟩
    · dsimp only
      rw [h1, h2]
      exact ⟨by simp [Except.map, to_var_value_val], rfl⟩
  · unfold var_simplex_constrain_lp simplex_constrain_lp
    obtain ⟨h1, h2⟩ := hvv (k - 1) s
    split_ifs with h hJ
    · exact ⟨rfl, rfl⟩
    · dsimp only
      rw [h1, h2]
      exact ⟨by simp [Except.map, to_var_value_val], rfl⟩
    · dsimp only
      rw [h1, h2]
      exact ⟨by simp [Except.map, to_var_value_val], rfl⟩
  · unfold var_positive_ordered_constrain positive_ordered_constrain
    obtain ⟨h1, h2⟩ := hvv k s
    dsimp only
    rw [h1, h2]
    exact ⟨to_var_value_val _, rfl⟩
  · unfold var_cholesky_factor_corr_constrain cholesky_factor_corr_constrain
    obtain ⟨h1, h2⟩ := hvv ((K * (K - 1)) / 2) s
    dsimp only
    rw [h1, h2]
    exact ⟨by simp [List.map_map, Function.comp_def, to_var_value_val], rfl⟩
  · unfold var_cholesky_factor_corr_constrain_lp cholesky_factor_corr_constrain_lp
    obtain ⟨h1, h2⟩ := hvv ((K * (K - 1)) / 2) s
    split_ifs with hJ
    · dsimp only
      rw [h1, h2]
      exact ⟨by simp [List.map_map, Function.comp_def, to_var_value_val], rfl⟩
    · dsimp only
      rw [h1, h2]
      exact ⟨by simp [List.map_map, Function.comp_def, to_var_value_val], rfl⟩

/-- C9 witness: the amended equivalence instantiated at a 2×1 matrix
read and a length-2 vector read over buffer `[1, 2]`. -/
theorem claim_C9_witness :
    (var_matrix 2 1 (mkReader [(1 : ℝ), 2] [])).1.rows =
      (matrix 2 1 (mkReader [(1 : ℝ), 2] [])).1.rows ∧
    (var_vector 2 (mkReader [(1 : ℝ), 2] [])).1.map VarScalar.val =
      (vector 2 (mkReader [(1 : ℝ), 2] [])).1 := by
  have h := claim_C9_amended_backend_equivalence 2 1 2 2 (mkReader [(1 : ℝ), 2] []) 0 false
  exact ⟨(h.2.2.1.2.2 (by norm_num) (by norm_num)).1, h.1.1⟩
